import Mathlib

/-!
Shallow embedding of the enum code generator of this repository
(`scripts/extract_enums.py` and `tools/csv2enum.py`).

Rows come from a spreadsheet / TSV reader (the external Row Source); the
embedding starts from the materialized ordered list of rows.  A spreadsheet
cell is either empty (`Option.none`, Python `None`) or holds a string or an
integer.  Fallible Python code (code that can raise `IndexError`,
`KeyError`, `TypeError`, `StopIteration`) is embedded as `Option`-returning
functions where `none` marks the raised exception.
-/

/-- Value held by a non-empty spreadsheet/TSV cell: a string or an integer. -/
inductive Cell where
  | s : String → Cell
  | n : Int → Cell
  deriving DecidableEq

/-- One spreadsheet row as consumed by `parse_row_columns`: the first four
cells of the row (the fifth is discarded by the source).  `none` models an
empty cell (Python `None`). -/
structure Row where
  type_name : Option Cell
  base_type : Option Cell
  value_name : Option Cell
  value : Option Cell
  deriving DecidableEq

/-- Key/value entry of the Python dict `mapping`: raw key cell mapped to the
raw value-name cell. -/
abbrev KV := Option Cell × Option Cell

/-- One element of the `enums` list built by `parse_enums`: the tuple
`(type_name, base_type, mapping)`. -/
structure EnumDef where
  type_name : Option Cell
  base_type : Option Cell
  mapping : List KV
  deriving DecidableEq

/-- Python dict insertion `mapping[k] = v`: an existing key keeps its
original position and gets the new value; a new key is appended. -/
def dinsert (m : List KV) (k v : Option Cell) : List KV :=
  match m with
  | [] => [(k, v)]
  | (k', v') :: rest => if k' = k then (k', v) :: rest else (k', v') :: dinsert rest k v

/-- Python dict lookup `mapping[k]` as an option (used only in statements). -/
def lookupD (m : List KV) (k : Option Cell) : Option (Option Cell) :=
  match m with
  | [] => none
  | (k', v) :: rest => if k' = k then some v else lookupD rest k

/-- The boundary test of `parse_type`:
`type_name is not None and base_type is not None`. -/
def isBoundary (r : Row) : Bool :=
  r.type_name.isSome && r.base_type.isSome

/-- Result of `parse_type`: the accumulated mapping, the boundary cells of
the row that stopped the loop (both `none` when the iterator was exhausted),
and the rows left in the shared iterator. -/
structure ParseTypeResult where
  mapping : List KV
  next_type_name : Option Cell
  next_base_type : Option Cell
  rest : List Row
  deriving DecidableEq

/-- Loop body of `parse_type` (`extract_enums.py`): consume rows, inserting
`mapping[value] = value_name` for every non-boundary row, until a boundary
row (both `type_name` and `base_type` populated) or the end of the rows. -/
def parse_type_aux (mapping : List KV) : List Row → ParseTypeResult
  | [] => ⟨mapping, none, none, []⟩
  | r :: rows =>
    if isBoundary r then
      ⟨mapping, r.type_name, r.base_type, rows⟩
    else
      parse_type_aux (dinsert mapping r.value r.value_name) rows

/-- `parse_type` of `extract_enums.py`, starting from an empty dict. -/
def parse_type (rows : List Row) : ParseTypeResult :=
  parse_type_aux [] rows

/-- The `while True` loop of `parse_enums` fused with the `for` loop of
`parse_type`: starting from the current boundary `(type_name, base_type)`
and the accumulated `mapping`, a boundary row closes the current group and
opens a new one, any other row is inserted into the current mapping, and
the end of input closes the final open group unconditionally.
`segment_go_parse_type` below proves that this is exactly the composition
of the `parse_enums` loop with `parse_type`. -/
def segment_go (type_name base_type : Option Cell) (mapping : List KV) :
    List Row → List EnumDef
  | [] => [⟨type_name, base_type, mapping⟩]
  | r :: rows =>
    if isBoundary r then
      ⟨type_name, base_type, mapping⟩ :: segment_go r.type_name r.base_type [] rows
    else
      segment_go type_name base_type (dinsert mapping r.value r.value_name) rows

/-- `parse_enums` of `extract_enums.py`, on the materialized row list of the
sheet (the workbook reading itself is the out-of-scope Row Source).  The
first row is the header and is skipped; the second row is consumed by
`next(iterator)` and its `type_name`/`base_type` become the first boundary
unconditionally.  `none` models the uncaught `StopIteration` raised by
`next` when fewer than two rows exist. -/
def parse_enums : List Row → Option (List EnumDef)
  | [] => none
  | [_] => none
  | _hdr :: r :: rows => some (segment_go r.type_name r.base_type [] rows)

/-- The `while string[0].isdigit(): string = string[1:]` loop of
`to_camel_case`, on the character list: `none` models the `IndexError`
raised when the string becomes empty and `string[0]` is evaluated. -/
def stripLeadingDigits : List Char → Option (List Char)
  | [] => none
  | c :: cs => if c.isDigit then stripLeadingDigits cs else some (c :: cs)

/-- Python `str.split("_")` on a character list: separator occurrences
delimit (possibly empty) words, `"".split("_") == [""]`. -/
def splitUnders : List Char → List (List Char)
  | [] => [[]]
  | c :: cs =>
    let r := splitUnders cs
    if c = '_' then [] :: r
    else
      match r with
      | [] => [[c]]
      | w :: ws => (c :: w) :: ws

/-- Python `str.capitalize()` (ASCII): first character upper-cased, the
rest lower-cased; empty string maps to itself. -/
def pyCapitalize (w : List Char) : String :=
  match w with
  | [] => ""
  | c :: cs => String.mk (Char.toUpper c :: cs.map Char.toLower)

/-- `to_camel_case` of `extract_enums.py`.  `none` models the `IndexError`
raised on a non-empty all-digit input (the `len(string) == 0` re-check after
the stripping loop is unreachable: the loop itself evaluates `string[0]` on
the emptied string first). -/
def to_camel_case (s : String) : Option String :=
  if s.length = 0 then some s
  else
    match stripLeadingDigits s.data with
    | none => none
    | some cs =>
      if cs.length = 0 then some (String.mk cs)
      else
        some (String.join ((splitUnders (cs.map Char.toLower)).map pyCapitalize))

/-- `to_camel_case` applied to a raw cell value, as `build_rust_enums` does:
a `None` cell or a numeric cell raises `TypeError` inside `len`/`lower`
(modelled as `none`). -/
def to_camel_case_cell : Option Cell → Option String
  | some (Cell.s str) => to_camel_case str
  | _ => none

/-- Python `str(x)` / f-string interpolation of a raw cell value, used for
the `{k}` key part of the generated match arms. -/
def pyStr : Option Cell → String
  | none => "None"
  | some (Cell.s str) => str
  | some (Cell.n i) => toString i

/-- Python `",\n".join(...)`. -/
def joinCN (l : List String) : String :=
  String.intercalate (",\n") l

/-- The static `type_mapping` dict of `extract_enums.py`. -/
def type_mapping : List (String × String) :=
  [("enum", "u8"), ("uint8", "u8"), ("uint8z", "u8"),
   ("uint16", "u16"), ("uint32", "u32"), ("uint32z", "u32")]

/-- Python `type_mapping[base_type]`: `none` models the `KeyError` raised
for a token absent from the dict (including `None` and numeric cells). -/
def lookup_type_mapping : Option Cell → Option String
  | some (Cell.s str) => type_mapping.lookup str
  | _ => none

/-- One entry of the umbrella `Enums` declaration:
`f"{to_camel_case(e)}({to_camel_case(e)})"`. -/
def umbrellaEntry (e : EnumDef) : Option String :=
  match to_camel_case_cell e.type_name with
  | none => none
  | some nm => some (nm ++ "(" ++ nm ++ ")")

/-- Sequencing of one computed entry onto the computed later entries: the
option counterpart of consing inside a Python list comprehension, where an
exception anywhere aborts the whole comprehension. -/
def consOpt (x : Option String) (xs : Option (List String)) : Option (List String) :=
  match x, xs with
  | some s, some ss => some (s :: ss)
  | _, _ => none

/-- The list joined into the body of the umbrella `Enums` declaration, one
entry per `EnumDef` (empty ones included). -/
def umbrella_entries : List EnumDef → Option (List String)
  | [] => some []
  | e :: rest => consOpt (umbrellaEntry e) (umbrella_entries rest)

/-- The `variants` list of one emitted enum:
`to_camel_case(v) for v in mapping.values()`. -/
def variant_names : List KV → Option (List String)
  | [] => some []
  | kv :: rest => consOpt (to_camel_case_cell kv.2) (variant_names rest)

/-- The `mappings` list of one emitted enum:
`f"{k} => {enum}::{to_camel_case(v)}" for k, v in mapping.items()`. -/
def mapping_arms (enumName : String) : List KV → Option (List String)
  | [] => some []
  | kv :: rest =>
    consOpt ((to_camel_case_cell kv.2).map
      (fun v => pyStr kv.1 ++ " => " ++ enumName ++ "::" ++ v))
      (mapping_arms enumName rest)

/-- The text appended to `content` for one `EnumDef` with a non-empty
mapping: the enum declaration (variants plus a bare trailing `Unknown` tag)
followed by the `impl` block with the `from` decode function.  `none` models
any exception raised while producing it (`TypeError`/`IndexError` from
`to_camel_case`, `KeyError` from `type_mapping[base_type]`). -/
def enum_block (e : EnumDef) : Option String :=
  match to_camel_case_cell e.type_name with
  | none => none
  | some enm =>
    match variant_names e.mapping, mapping_arms enm e.mapping with
    | some vs, some ms =>
      match lookup_type_mapping e.base_type with
      | none => none
      | some bt =>
        some ("\n#[derive(Debug, PartialEq)]\npub enum " ++ enm ++ " \x7b\n"
          ++ joinCN vs ++ ",\nUnknown\n\x7d"
          ++ "\nimpl " ++ enm ++ " \x7b\npub fn from(content: " ++ bt ++ ") -> "
          ++ enm ++ " \x7b\nmatch content \x7b\n" ++ joinCN ms
          ++ ",\n_ => " ++ enm ++ "::Unknown\n\x7d\n\x7d\n\x7d\n")
    | _, _ => none

/-- The for-loop of `build_rust_enums`: per-enum blocks in list order, an
`EnumDef` with an empty mapping is skipped (`continue`). -/
def enum_blocks : List EnumDef → Option (List String)
  | [] => some []
  | e :: rest =>
    if e.mapping.length = 0 then enum_blocks rest
    else consOpt (enum_block e) (enum_blocks rest)

/-- `build_rust_enums` of `extract_enums.py`: the umbrella `Enums`
declaration over every `EnumDef`, followed by the per-enum blocks.  `none`
models an exception escaping the function (then nothing is printed). -/
def build_rust_enums (enums : List EnumDef) : Option String :=
  match umbrella_entries enums with
  | none => none
  | some es =>
    match enum_blocks enums with
    | none => none
    | some bs =>
      some ("\n#[derive(Debug, PartialEq)]\npub enum Enums \x7b\n"
        ++ joinCN es ++ "\n\x7d\n" ++ String.join bs)

/-- The whole generator run of `extract_enums.py` on a materialized row
list: `parse_enums` then `build_rust_enums`; `none` means the run aborted
with an exception and printed nothing. -/
def extract_pipeline (rows : List Row) : Option String :=
  match parse_enums rows with
  | none => none
  | some enums => build_rust_enums enums

/-- Leading/trailing-whitespace removal of Python `str.strip()` on a
character list (leading side; `pyTrim` composes it with reversal). -/
def dropLeadWs : List Char → List Char
  | [] => []
  | c :: cs => if c.isWhitespace then dropLeadWs cs else c :: cs

/-- Python `str.strip()`. -/
def pyTrim (l : List Char) : List Char :=
  ((dropLeadWs ((dropLeadWs l).reverse)).reverse)

/-- `snake_to_camel` of `csv2enum.py`:
`string.strip().lower().split("_")`, then capitalize and join the non-empty
words.  Total: it never raises. -/
def snake_to_camel (s : String) : String :=
  let words := splitUnders ((pyTrim s.data).map Char.toLower)
  String.join ((words.filter (fun w => !w.isEmpty)).map pyCapitalize)

/-- The row filter of `csv2enum.py`'s main block:
`[row for row in reader if row[0] != ""]`.  A TSV row is modelled by its
first two cells, the only ones the script reads. -/
def csv_rows (rows : List (String × String)) : List (String × String) :=
  rows.filter (fun r => !(r.1 == ""))

/-- The `enum_code` f-string of `csv2enum.py`: one enum with a trailing
`Unknown(u8)` tag and a total `From<u8>` decode whose fallback arm is
`_ => Self::Unknown(value)`. -/
def enum_code (enum_name : String) (rows0 : List (String × String)) : String :=
  let rows := csv_rows rows0
  let variants := rows.map (fun r => snake_to_camel r.2)
  let mappings := rows.map (fun r => r.1 ++ " => Self::" ++ snake_to_camel r.2)
  "\n#[derive(Debug, Clone, Copy, PartialEq, Eq)]\npub enum " ++ enum_name
    ++ " \x7b\n" ++ joinCN variants ++ ",\n    Unknown(u8),\n\x7d\n\nimpl From<u8> for "
    ++ enum_name ++ " \x7b\n    fn from(value: u8) -> Self \x7b\n        match value \x7b\n"
    ++ joinCN mappings ++ ",\n            _ => Self::Unknown(value)\n        \x7d\n    \x7d\n\x7d"

/-- `pat` is a prefix of `s` (character lists). -/
def strTake (pat s : List Char) : Bool :=
  match pat, s with
  | [], _ => true
  | _ :: _, [] => false
  | p :: ps, c :: cs => p == c && strTake ps cs

/-- `pat` occurs somewhere in `s` (character lists). -/
def strFind (pat : List Char) : List Char → Bool
  | [] => strTake pat []
  | c :: cs => strTake pat (c :: cs) || strFind pat cs

/-- `pat` occurs as a substring of `s`. -/
def strHas (s pat : String) : Bool :=
  strFind pat.data s.data

/-- Runtime meaning of the decode function emitted by `extract_enums.py`:
its `Unknown` fallback tag has no payload. -/
inductive ExtDecoded where
  | variant : String → ExtDecoded
  | unknownTag : ExtDecoded
  deriving DecidableEq

/-- Semantics of the `match content` expression of the `from` function
emitted by `build_rust_enums`: arms `(key, tag name)` in emission order,
first matching key wins, final arm `_ => Enum::Unknown` (no payload). -/
def from_content (arms : List (Int × String)) (content : Int) : ExtDecoded :=
  match arms with
  | [] => ExtDecoded.unknownTag
  | (k, v) :: rest =>
    if content = k then ExtDecoded.variant v else from_content rest content

/-- Runtime meaning of the decode function emitted by `csv2enum.py`: its
`Unknown(u8)` fallback tag carries the raw undecoded value. -/
inductive CsvDecoded where
  | variant : String → CsvDecoded
  | unknownVal : Nat → CsvDecoded
  deriving DecidableEq

/-- Semantics of the `match value` expression of the `from` function
emitted by `enum_code`: arms in emission order, first matching key wins,
final arm `_ => Self::Unknown(value)` carrying the raw value. -/
def from_value (arms : List (Nat × String)) (value : Nat) : CsvDecoded :=
  match arms with
  | [] => CsvDecoded.unknownVal value
  | (k, v) :: rest =>
    if value = k then CsvDecoded.variant v else from_value rest value

/-- Shorthand for a populated string cell. -/
def cs (x : String) : Option Cell := some (Cell.s x)

/-- Shorthand for a populated integer cell. -/
def cn (x : Int) : Option Cell := some (Cell.n x)

/-- A generic header row (discarded by `parse_enums` whatever it holds). -/
def hdrRow : Row :=
  ⟨cs ("Type Name"), cs ("Base Type"), cs ("Value Name"), cs ("Value")⟩

/-- A boundary row, both boundary cells populated. -/
def boundaryRow (tn bt : String) : Row :=
  ⟨cs tn, cs bt, none, none⟩

/-- A value row: boundary cells empty, numeric key and string name. -/
def valueRow (k : Int) (nm : String) : Row :=
  ⟨none, none, cs nm, cn k⟩

/-- Malformed boundary row of the spec's scenario: `type_name="Foo"` but
empty `base_type`, carrying value cells. -/
def fooHalfRow : Row :=
  ⟨cs ("Foo"), none, cs ("bar"), cn 7⟩

/-- Row list of the malformed-boundary scenario: header, a valid `sport`
boundary, then the half-populated row. -/
def rowsC1 : List Row :=
  [hdrRow, boundaryRow ("sport") ("enum"), fooHalfRow]

/-- Row list of the duplicate-key scenario: key `5` mapped to `"a"` then to
`"b"` inside the single `sport` segment. -/
def rowsC5 : List Row :=
  [hdrRow, boundaryRow ("sport") ("enum"), valueRow 5 ("a"), valueRow 5 ("b")]

/-- Row list whose first row after the header is a value row, not a
boundary row. -/
def rowsC9 : List Row :=
  [hdrRow, valueRow 5 ("a"), boundaryRow ("foo") ("enum")]

/-- A one-enum input to `build_rust_enums` with one mapped variant. -/
def sportEnums : List EnumDef :=
  [⟨cs ("sport"), cs ("enum"), [(cn 0, cs ("generic"))]⟩]

/-- An input to `build_rust_enums` whose only non-empty enum has a
`base_type` token absent from `type_mapping`. -/
def badBaseEnums : List EnumDef :=
  [⟨cs ("sport"), cs ("bogus"), [(cn 0, cs ("a"))]⟩]

/-! Helper lemmas shared by the claim theorems. -/

theorem lookupD_dinsert (m : List KV) (k v : Option Cell) :
    lookupD (dinsert m k v) k = some v := by
  induction m with
  | nil => simp [dinsert, lookupD]
  | cons kv rest ih =>
    obtain ⟨k', v'⟩ := kv
    by_cases h : k' = k
    · simp [dinsert, lookupD, h]
    · simp [dinsert, lookupD, h, ih]

theorem dinsert_not_mem (m : List KV) (k v : Option Cell)
    (h : k ∉ m.map Prod.fst) : dinsert m k v = m ++ [(k, v)] := by
  induction m with
  | nil => rfl
  | cons kv rest ih =>
    obtain ⟨k', v'⟩ := kv
    simp only [List.map_cons, List.mem_cons] at h
    push_neg at h
    simp [dinsert, Ne.symm h.1, ih h.2]

theorem parse_type_aux_values (vs ws : List Row) (m : List KV)
    (h : ∀ r ∈ vs, isBoundary r = false) :
    parse_type_aux m (vs ++ ws) =
      parse_type_aux (vs.foldl (fun acc r => dinsert acc r.value r.value_name) m) ws := by
  induction vs generalizing m with
  | nil => rfl
  | cons r vs ih =>
    have hr : isBoundary r = false := h r (List.mem_cons_self r vs)
    simp only [List.cons_append, parse_type_aux, hr, Bool.false_eq_true, if_false,
      List.foldl_cons]
    exact ih (dinsert m r.value r.value_name) (fun x hx => h x (List.mem_cons_of_mem r hx))

theorem parse_type_aux_nodup (vs : List Row) (m : List KV)
    (hv : ∀ r ∈ vs, isBoundary r = false)
    (hnd : (vs.map (fun r => r.value)).Nodup)
    (hfresh : ∀ r ∈ vs, r.value ∉ m.map Prod.fst) :
    (parse_type_aux m vs).mapping = m ++ vs.map (fun r => (r.value, r.value_name)) := by
  induction vs generalizing m with
  | nil => simp [parse_type_aux]
  | cons r vs ih =>
    have hr : isBoundary r = false := hv r (List.mem_cons_self r vs)
    simp only [List.map_cons, List.nodup_cons] at hnd
    simp only [parse_type_aux, hr, Bool.false_eq_true, if_false]
    rw [dinsert_not_mem m r.value r.value_name (hfresh r (List.mem_cons_self r vs))]
    rw [ih (m ++ [(r.value, r.value_name)])
      (fun x hx => hv x (List.mem_cons_of_mem r hx)) hnd.2 ?_]
    · simp
    · intro x hx
      simp only [List.map_append, List.mem_append, List.map_cons, List.map_nil,
        List.mem_singleton]
      rintro (hmem | hkey)
      · exact hfresh x (List.mem_cons_of_mem r hx) hmem
      · exact hnd.1 (hkey ▸ List.mem_map_of_mem (fun r => r.value) hx)

theorem segment_go_values (vs ws : List Row) (tn bt : Option Cell) (m : List KV)
    (h : ∀ r ∈ vs, isBoundary r = false) :
    segment_go tn bt m (vs ++ ws) =
      segment_go tn bt (vs.foldl (fun acc r => dinsert acc r.value r.value_name) m) ws := by
  induction vs generalizing m with
  | nil => rfl
  | cons r vs ih =>
    have hr : isBoundary r = false := h r (List.mem_cons_self r vs)
    simp only [List.cons_append, segment_go, hr, Bool.false_eq_true, if_false,
      List.foldl_cons]
    exact ih (dinsert m r.value r.value_name) (fun x hx => h x (List.mem_cons_of_mem r hx))

theorem segment_go_parse_type (rows : List Row) (tn bt : Option Cell) (m : List KV) :
    segment_go tn bt m rows =
      (if (parse_type_aux m rows).next_type_name = none ∧
          (parse_type_aux m rows).next_base_type = none then
        [⟨tn, bt, (parse_type_aux m rows).mapping⟩]
      else
        ⟨tn, bt, (parse_type_aux m rows).mapping⟩ ::
          segment_go (parse_type_aux m rows).next_type_name
            (parse_type_aux m rows).next_base_type [] (parse_type_aux m rows).rest) := by
  induction rows generalizing m with
  | nil => simp [segment_go, parse_type_aux]
  | cons r rows ih =>
    by_cases hb : isBoundary r
    · have h1 : r.type_name ≠ none := by
        simp only [isBoundary, Bool.and_eq_true] at hb
        exact Option.ne_none_iff_isSome.mpr hb.1
      simp only [segment_go, parse_type_aux, hb, if_true]
      rw [if_neg (fun hc => h1 hc.1)]
    · have hb' : isBoundary r = false := by simpa using hb
      simp only [segment_go, parse_type_aux, hb', Bool.false_eq_true, if_false]
      exact ih (dinsert m r.value r.value_name)

theorem consOpt_some (x : Option String) (xs : Option (List String)) (ys : List String)
    (h : consOpt x xs = some ys) :
    ∃ s ss, x = some s ∧ xs = some ss ∧ ys = s :: ss := by
  cases x with
  | none => simp [consOpt] at h
  | some s =>
    cases xs with
    | none => simp [consOpt] at h
    | some ss =>
      simp only [consOpt, Option.some_inj] at h
      exact ⟨s, ss, rfl, rfl, h.symm⟩

theorem umbrella_entries_length (enums : List EnumDef) (es : List String)
    (h : umbrella_entries enums = some es) : es.length = enums.length := by
  induction enums generalizing es with
  | nil =>
    simp only [umbrella_entries, Option.some_inj] at h
    simp [← h]
  | cons e rest ih =>
    simp only [umbrella_entries] at h
    obtain ⟨s, ss, _, hss, rfl⟩ := consOpt_some _ _ _ h
    simp [ih ss hss]

theorem enum_blocks_length (enums : List EnumDef) (bs : List String)
    (h : enum_blocks enums = some bs) :
    bs.length = (enums.filter (fun e => e.mapping.length != 0)).length := by
  induction enums generalizing bs with
  | nil =>
    simp only [enum_blocks, Option.some_inj] at h
    simp [← h]
  | cons e rest ih =>
    by_cases hlen : e.mapping.length = 0
    · simp only [enum_blocks, hlen, if_pos rfl] at h
      simp only [List.filter_cons, hlen]
      simpa using ih bs h
    · simp only [enum_blocks, hlen, if_false] at h
      obtain ⟨b, bs', _, hbs, rfl⟩ := consOpt_some _ _ _ h
      have hne : (e.mapping.length != 0) = true := by simpa using hlen
      simp [List.filter_cons, hne, ih bs' hbs]

theorem enum_block_none (e : EnumDef)
    (h : lookup_type_mapping e.base_type = none) : enum_block e = none := by
  unfold enum_block
  split
  · rfl
  · split
    · rw [h]
    · rfl

theorem enum_blocks_none (enums : List EnumDef) (e : EnumDef) (hmem : e ∈ enums)
    (hne : e.mapping ≠ []) (hb : enum_block e = none) : enum_blocks enums = none := by
  induction enums with
  | nil => cases hmem
  | cons a rest ih =>
    by_cases hae : a = e
    · subst hae
      have hlen : ¬ a.mapping.length = 0 := by
        simpa [List.length_eq_zero] using hne
      simp [enum_blocks, hlen, hb, consOpt]
    · have hmem' : e ∈ rest := by
        rcases List.mem_cons.mp hmem with h' | h'
        · exact absurd h'.symm hae
        · exact h'
      by_cases hlen : a.mapping.length = 0
      · simp [enum_blocks, hlen, ih hmem']
      · simp only [enum_blocks, hlen, if_false]
        rw [ih hmem']
        cases enum_block a <;> rfl

theorem umbrella_entries_base (pre post : List EnumDef) (tn b1 b2 : Option Cell) :
    umbrella_entries (pre ++ ⟨tn, b1, []⟩ :: post) =
      umbrella_entries (pre ++ ⟨tn, b2, []⟩ :: post) := by
  induction pre with
  | nil => simp [umbrella_entries, umbrellaEntry]
  | cons p pre ih =>
    simp only [List.cons_append, umbrella_entries]
    exact congrArg (consOpt (umbrellaEntry p)) ih

theorem enum_blocks_base (pre post : List EnumDef) (tn b1 b2 : Option Cell) :
    enum_blocks (pre ++ ⟨tn, b1, []⟩ :: post) =
      enum_blocks (pre ++ ⟨tn, b2, []⟩ :: post) := by
  induction pre with
  | nil => simp [enum_blocks]
  | cons p pre ih =>
    simp only [List.cons_append, enum_blocks]
    exact congrArg
      (fun z => if p.mapping.length = 0 then z else consOpt (enum_block p) z) ih

theorem build_rust_enums_base (pre post : List EnumDef) (tn b1 b2 : Option Cell) :
    build_rust_enums (pre ++ ⟨tn, b1, []⟩ :: post) =
      build_rust_enums (pre ++ ⟨tn, b2, []⟩ :: post) := by
  unfold build_rust_enums
  rw [umbrella_entries_base pre post tn b1 b2]
  simp only [enum_blocks_base pre post tn b1 b2]

theorem umbrella_entries_mem (pre post : List EnumDef) (e : EnumDef) (y : String)
    (es : List String) (hy : umbrellaEntry e = some y)
    (h : umbrella_entries (pre ++ e :: post) = some es) : y ∈ es := by
  induction pre generalizing es with
  | nil =>
    rw [List.nil_append] at h
    simp only [umbrella_entries, hy] at h
    obtain ⟨s, ss, hs, _, rfl⟩ := consOpt_some _ _ _ h
    obtain rfl : y = s := Option.some_inj.mp hs
    exact List.mem_cons_self y ss
  | cons p pre ih =>
    rw [List.cons_append] at h
    simp only [umbrella_entries] at h
    obtain ⟨s, ss, _, hss, rfl⟩ := consOpt_some _ _ _ h
    exact List.mem_cons_of_mem s (ih ss hss)

/-! Claim theorems. -/

/-- C1, counterexample: on rows holding a half-populated boundary row
(`type_name="Foo"`, empty `base_type`, value cells `7`/`"bar"`), the claim
"generation aborts with a MalformedBoundary error and produces zero output
text; such a row is never silently consumed as a value row" is false: the
run produces output text, and the row's `(value, value_name)` pair ends up
inside the `sport` segment's mapping, i.e. the row was consumed as a value
row. -/
theorem claim_C1_counterexample :
    (extract_pipeline rowsC1).isSome = true ∧
    parse_enums rowsC1 =
      some [⟨cs ("sport"), cs ("enum"), [(cn 7, cs ("bar"))]⟩] :=
  ⟨by decide, by decide⟩

/-- C1, amended: a row with at most one of `type_name`/`base_type`
populated is silently consumed by `parse_type` as a value row, inserting
`(value, value_name)` into the current mapping; generation does not abort,
and on the counterexample rows output text is produced. -/
theorem claim_C1_theorem :
    (∀ (m : List KV) (r : Row) (rest : List Row), isBoundary r = false →
      parse_type_aux m (r :: rest) =
        parse_type_aux (dinsert m r.value r.value_name) rest) ∧
    (extract_pipeline rowsC1).isSome = true := by
  constructor
  · intro m r rest h
    simp [parse_type_aux, h]
  · decide

/-- C1, witness: the amended consumption equation at the concrete
half-boundary row. -/
theorem claim_C1_witness :
    parse_type_aux [] [fooHalfRow] =
      parse_type_aux (dinsert [] (cn 7) (cs ("bar"))) [] :=
  claim_C1_theorem.1 [] fooHalfRow [] rfl

/-- C2: the claim says the identifier normalizer is total (never throws)
even on non-empty all-digit inputs; but `to_camel_case "123"` raises
`IndexError` (the stripping loop evaluates `string[0]` on the emptied
string), modelled here as `none`.  The dead `len(string) == 0` re-check
after the loop shows the intended result was the empty string. -/
theorem claim_C2_theorem : to_camel_case ("123") = none := by decide

/-- C3, counterexample: for the one-enum input `sportEnums`,
`build_rust_enums` succeeds but its output text contains no parameterized
`Unknown(` anywhere — its decode fallback is the payload-free
`_ => Sport::Unknown` — refuting the claim that the Unknown tag carries the
raw undecoded value `Unknown(raw)` in both generators. -/
theorem claim_C3_counterexample :
    (build_rust_enums sportEnums).isSome = true ∧
    strHas ((build_rust_enums sportEnums).getD "") ("Unknown(") = false ∧
    strHas ((build_rust_enums sportEnums).getD "") ("_ => Sport::Unknown") = true :=
  ⟨by decide, by decide, by decide⟩

/-- C3, amended: every emitted decode function is total — any value absent
from the match arms resolves to the trailing Unknown fallback; in
`csv2enum.py` the fallback carries the raw value (`Unknown(value)`, emitted
as `_ => Self::Unknown(value)`), while in `extract_enums.py` the fallback
`Unknown` carries no payload. -/
theorem claim_C3_theorem :
    (∀ (arms : List (Int × String)) (content : Int),
      content ∉ arms.map Prod.fst →
      from_content arms content = ExtDecoded.unknownTag) ∧
    (∀ (arms : List (Nat × String)) (value : Nat),
      value ∉ arms.map Prod.fst →
      from_value arms value = CsvDecoded.unknownVal value) ∧
    strHas (enum_code ("Sport") [("0", ("generic"))]) ("_ => Self::Unknown(value)") = true := by
  refine ⟨?_, ?_, by decide⟩
  · intro arms content h
    induction arms with
    | nil => rfl
    | cons kv rest ih =>
      obtain ⟨k, v⟩ := kv
      simp only [List.map_cons, List.mem_cons] at h
      push_neg at h
      simp [from_content, h.1, ih h.2]
  · intro arms value h
    induction arms with
    | nil => rfl
    | cons kv rest ih =>
      obtain ⟨k, v⟩ := kv
      simp only [List.map_cons, List.mem_cons] at h
      push_neg at h
      simp [from_value, h.1, ih h.2]

/-- C3, witness: the fallback semantics at concrete arms and values. -/
theorem claim_C3_witness :
    from_content [(0, ("Generic"))] 5 = ExtDecoded.unknownTag ∧
    from_value [(0, ("Generic"))] 5 = CsvDecoded.unknownVal 5 :=
  ⟨claim_C3_theorem.1 [(0, ("Generic"))] 5 (by decide),
   claim_C3_theorem.2.1 [(0, ("Generic"))] 5 (by decide)⟩

/-- C4: for every enum list, the umbrella `Enums` declaration holds exactly
one entry per `EnumDef` (empty ones included), and the number of emitted
per-enum blocks equals the number of `EnumDef`s whose variants mapping is
non-empty (empty ones are skipped from standalone emission). -/
theorem claim_C4_theorem :
    ∀ (enums : List EnumDef) (es bs : List String),
      umbrella_entries enums = some es →
      enum_blocks enums = some bs →
      es.length = enums.length ∧
      bs.length = (enums.filter (fun e => e.mapping.length != 0)).length :=
  fun enums es bs h1 h2 =>
    ⟨umbrella_entries_length enums es h1, enum_blocks_length enums bs h2⟩

/-- C4, witness: one empty enum gives one umbrella entry and zero emitted
blocks. -/
theorem claim_C4_witness :
    ([("Display(Display)")] : List String).length =
      ([⟨cs ("display"), cs ("uint8"), []⟩] : List EnumDef).length ∧
    ([] : List String).length =
      (([⟨cs ("display"), cs ("uint8"), []⟩] : List EnumDef).filter
        (fun e => e.mapping.length != 0)).length :=
  claim_C4_theorem [⟨cs ("display"), cs ("uint8"), []⟩]
    [("Display(Display)")] [] (by decide) (by decide)

/-- C5: two value rows carrying the same key inside one segment do not make
the generator fail; the final mapping holds the later value (last write
wins, as Python dict assignment does).  Stated for an arbitrary prefix of
value rows followed by the two duplicate-key rows, plus the concrete
scenario key `5` mapped to `"a"` then `"b"` through the whole
`parse_enums`/`extract_pipeline` run. -/
theorem claim_C5_theorem :
    (∀ (vs : List Row) (k a b : Option Cell),
      (∀ r ∈ vs, isBoundary r = false) →
      lookupD (parse_type (vs ++ [⟨none, none, a, k⟩, ⟨none, none, b, k⟩])).mapping k
        = some b) ∧
    parse_enums rowsC5 =
      some [⟨cs ("sport"), cs ("enum"), [(cn 5, cs ("b"))]⟩] ∧
    (extract_pipeline rowsC5).isSome = true := by
  refine ⟨?_, by decide, by decide⟩
  intro vs k a b h
  rw [parse_type, parse_type_aux_values vs _ [] h]
  simp only [parse_type_aux, isBoundary, Option.isSome_none, Bool.false_and,
    Bool.false_eq_true, if_false]
  exact lookupD_dinsert _ k b

/-- C5, witness: the last-write-wins lookup at the concrete duplicate
rows. -/
theorem claim_C5_witness :
    lookupD (parse_type ([] ++
      [⟨none, none, cs ("a"), cn 5⟩, ⟨none, none, cs ("b"), cn 5⟩])).mapping (cn 5)
      = some (cs ("b")) :=
  claim_C5_theorem.1 [] (cn 5) (cs ("a")) (cs ("b")) (by simp)

/-- C6, counterexample: the claim's equation `normalize("2_letter_code") =
"LetterCode"` fails for the `csv2enum.py` normalizer `snake_to_camel`,
which does not strip leading digits. -/
theorem claim_C6_counterexample :
    snake_to_camel ("2_letter_code") = "2LetterCode" ∧
    ¬ snake_to_camel ("2_letter_code") = "LetterCode" :=
  ⟨by decide, by decide⟩

/-- C6, amended: `to_camel_case` of `extract_enums.py` satisfies all three
claimed equations (leading digits stripped, words capitalized and joined,
empty input returned unchanged); `snake_to_camel` of `csv2enum.py`
satisfies the `"uint8"` and `""` equations but keeps leading digits,
giving `"2LetterCode"`. -/
theorem claim_C6_theorem :
    to_camel_case ("uint8") = some ("Uint8") ∧
    to_camel_case ("2_letter_code") = some ("LetterCode") ∧
    to_camel_case ("") = some ("") ∧
    snake_to_camel ("uint8") = "Uint8" ∧
    snake_to_camel ("") = "" ∧
    snake_to_camel ("2_letter_code") = "2LetterCode" := by
  refine ⟨by decide, by decide, by decide, by decide, by decide, by decide⟩

/-- C7: an `EnumDef` with a non-empty variants mapping whose `base_type`
token is absent from `type_mapping` fails the whole build: `build_rust_enums`
aborts (the `KeyError` escapes) and returns no output text at all. -/
theorem claim_C7_theorem :
    ∀ (enums : List EnumDef) (e : EnumDef), e ∈ enums → e.mapping ≠ [] →
      lookup_type_mapping e.base_type = none → build_rust_enums enums = none := by
  intro enums e hmem hne hlk
  have hblocks : enum_blocks enums = none :=
    enum_blocks_none enums e hmem hne (enum_block_none e hlk)
  unfold build_rust_enums
  simp only [hblocks]
  cases umbrella_entries enums <;> rfl

/-- C7, witness: the build fails on the concrete `badBaseEnums` input. -/
theorem claim_C7_witness : build_rust_enums badBaseEnums = none :=
  claim_C7_theorem badBaseEnums ⟨cs ("sport"), cs ("bogus"), [(cn 0, cs ("a"))]⟩
    (by decide) (by decide) (by decide)

/-- C8: the pipeline is deterministic — identical input row sequences give
identical (byte-identical, since the result is a pure string) output for
both generators — and variant order is source insertion order: for a
segment of value rows with pairwise-distinct keys, the built mapping is
exactly the `(value, value_name)` pairs in source row order (no sorting,
no reordering; Python dicts preserve insertion order). -/
theorem claim_C8_theorem :
    (∀ rows rows' : List Row, rows = rows' →
      extract_pipeline rows = extract_pipeline rows') ∧
    (∀ (nm : String) (rows rows' : List (String × String)), rows = rows' →
      enum_code nm rows = enum_code nm rows') ∧
    (∀ vs : List Row, (∀ r ∈ vs, isBoundary r = false) →
      (vs.map (fun r => r.value)).Nodup →
      (parse_type vs).mapping = vs.map (fun r => (r.value, r.value_name))) := by
  refine ⟨fun rows rows' h => by rw [h], fun nm rows rows' h => by rw [h], ?_⟩
  intro vs hv hnd
  have h := parse_type_aux_nodup vs [] hv hnd (by simp)
  simpa [parse_type] using h

/-- C8, witness: determinism and insertion-order preservation at concrete
inputs. -/
theorem claim_C8_witness :
    extract_pipeline rowsC5 = extract_pipeline rowsC5 ∧
    enum_code ("Sport") [("0", ("generic"))] = enum_code ("Sport") [("0", ("generic"))] ∧
    (parse_type [⟨none, none, cs ("a"), cn 5⟩, ⟨none, none, cs ("b"), cn 6⟩]).mapping =
      [(cn 5, cs ("a")), (cn 6, cs ("b"))] :=
  ⟨claim_C8_theorem.1 rowsC5 rowsC5 rfl,
   claim_C8_theorem.2.1 ("Sport") [("0", ("generic"))] [("0", ("generic"))] rfl,
   claim_C8_theorem.2.2 [⟨none, none, cs ("a"), cn 5⟩, ⟨none, none, cs ("b"), cn 6⟩]
     (by decide) (by decide)⟩

/-- C9, counterexample: when the first row after the header is a value row,
the segmenter does not initialize its boundary from the first boundary row
encountered (here `("foo","enum")`): it uses the value row's empty cells,
yielding a leading segment with boundary `(None, None)` — and that value
row's data is dropped. -/
theorem claim_C9_counterexample :
    parse_enums rowsC9 =
      some [⟨none, none, []⟩, ⟨cs ("foo"), cs ("enum"), []⟩] ∧
    ((parse_enums rowsC9).getD []).head? = some ⟨none, none, []⟩ :=
  ⟨by decide, by decide⟩

/-- C9, amended: after the header row is skipped, the segmenter initializes
its current boundary from the next row unconditionally (well-formed input
is assumed to carry a boundary row there); every following value row is
attributed to the most recently opened boundary, and the final open group
is closed at end of input even if it has zero value rows. -/
theorem claim_C9_theorem :
    ∀ (hdr b b2 : Row) (vs : List Row),
      isBoundary b2 = true →
      (∀ r ∈ vs, isBoundary r = false) →
      parse_enums (hdr :: b :: (vs ++ [b2])) =
        some [⟨b.type_name, b.base_type,
                vs.foldl (fun m r => dinsert m r.value r.value_name) []⟩,
              ⟨b2.type_name, b2.base_type, []⟩] := by
  intro hdr b b2 vs h2 hv
  show some (segment_go b.type_name b.base_type [] (vs ++ [b2])) = _
  rw [segment_go_values vs [b2] b.type_name b.base_type [] hv]
  simp [segment_go, h2]

/-- C9, witness: the spec's round-trip scenario — a `sport` boundary with
two value rows, then a `display` boundary with none — yields exactly two
segments, the second closed empty at end of input. -/
theorem claim_C9_witness :
    parse_enums (hdrRow :: boundaryRow ("sport") ("enum") ::
        ([valueRow 0 ("generic"), valueRow 1 ("running")] ++
          [boundaryRow ("display") ("uint8")])) =
      some [⟨cs ("sport"), cs ("enum"),
              [(cn 0, cs ("generic")), (cn 1, cs ("running"))]⟩,
            ⟨cs ("display"), cs ("uint8"), []⟩] :=
  claim_C9_theorem hdrRow (boundaryRow ("sport") ("enum"))
    (boundaryRow ("display") ("uint8"))
    [valueRow 0 ("generic"), valueRow 1 ("running")] (by decide) (by decide)

/-- C10: for a segment whose variants mapping is empty, the emitter never
consults `type_mapping` — the whole build output is invariant under
replacing that segment's `base_type` by any other cell — and the segment
still contributes its entry to the umbrella `Enums` declaration. -/
theorem claim_C10_theorem :
    ∀ (tn b1 b2 : Option Cell) (pre post : List EnumDef),
      build_rust_enums (pre ++ ⟨tn, b1, []⟩ :: post) =
        build_rust_enums (pre ++ ⟨tn, b2, []⟩ :: post) ∧
      (∀ (nm : String) (es : List String),
        to_camel_case_cell tn = some nm →
        umbrella_entries (pre ++ ⟨tn, b1, []⟩ :: post) = some es →
        (nm ++ "(" ++ nm ++ ")") ∈ es) := by
  intro tn b1 b2 pre post
  refine ⟨build_rust_enums_base pre post tn b1 b2, ?_⟩
  intro nm es hnm hes
  refine umbrella_entries_mem pre post ⟨tn, b1, []⟩ (nm ++ "(" ++ nm ++ ")") es ?_ hes
  simp [umbrellaEntry, hnm]

/-- C10, witness: an empty `display` enum with the unmapped base type
`"bogus"` builds to the same output as with `"uint8"`, and its entry is in
the umbrella list. -/
theorem claim_C10_witness :
    build_rust_enums ([] ++ (⟨cs ("display"), cs ("bogus"), []⟩ : EnumDef) :: []) =
      build_rust_enums ([] ++ (⟨cs ("display"), cs ("uint8"), []⟩ : EnumDef) :: []) ∧
    ("Display" ++ "(" ++ "Display" ++ ")") ∈ ([("Display(Display)")] : List String) :=
  ⟨(claim_C10_theorem (cs ("display")) (cs ("bogus")) (cs ("uint8")) [] []).1,
   (claim_C10_theorem (cs ("display")) (cs ("bogus")) (cs ("uint8")) [] []).2
     ("Display") [("Display(Display)")] (by decide) (by decide)⟩
